import Mathlib

set_option maxRecDepth 100000

/-!
Verification of the `visual-benchmarking` instrumentation header
(`visual_benchmarking.h` / `main.cpp`).

The embedding models the C++ `Instrumentor` singleton, the
`InstrumentationTimer` RAII scope timer, and the `std::ofstream` sink the
code writes through.  Machine `long long` / `int` / `uint32_t` values are
modelled as `Int` / `Nat` (none of the verified properties approach the
overflow boundaries).  The `std::ofstream` is modelled with the stream
semantics the source relies on:

  * `open(path, out | trunc)` truncates `path` and clears the error state
    on success, but fails (setting the fail flag, touching no file) when
    the stream is already associated with an open file;
  * `operator<<` appends to the open file, and is a no-op whenever the
    stream is not open or its fail flag is set;
  * `close()` dissociates the file when open, and sets the fail flag when
    the stream was not open;
  * `flush()` has no observable effect in the model (file contents are
    already immediate).

The file system is a map from path names to optional file contents, so
claims about "neither creates nor modifies any file" are directly
statable.
-/

/-- Mirror of `struct ProfileResult` (`visual_benchmarking.h`):
scope name, start/end timestamps in microseconds (`long long`),
and the numeric thread id (`uint32_t`). -/
structure ProfileResult where
  Name : String
  Start : Int
  End : Int
  ThreadID : Nat
deriving DecidableEq

/-- The `Instrumentor` singleton's state, together with the state of its
`std::ofstream m_OutputStream` and the ambient file system.
`m_CurrentSession` holds the `InstrumentationSession` name (the session
object's only field); `sink` is the path of the currently open file, or
`none` when the stream is closed; `fail` is the stream's failbit. -/
structure Instrumentor where
  m_CurrentSession : Option String
  m_ProfileCount : Int
  sink : Option String
  fail : Bool
  fs : String → Option String

/-- `m_OutputStream << text`: appends to the open file;
a no-op when the stream is closed or in a failed state. -/
def streamWrite (st : Instrumentor) (text : String) : Instrumentor :=
  match st.sink with
  | some p =>
      if st.fail then st
      else { st with fs := fun q => if q = p then some ((st.fs p).getD "" ++ text) else st.fs q }
  | none => st

/-- `std::replace(name.begin(), name.end(), ODQ, OSQ)` where ODQ is the
double-quote character and OSQ the single-quote character
(source line `std::replace(name.begin(), name.end(), ...)`). -/
def replaceQuotes (s : String) : String :=
  String.mk (s.data.map fun c => if c = '\x22' then '\x27' else c)

/-- `Instrumentor::WriteHeader`: emits the fixed header and flushes. -/
def Instrumentor.WriteHeader (st : Instrumentor) : Instrumentor :=
  streamWrite st "\x7b\x22otherData\x22: \x7b\x7d,\x22traceEvents\x22:["

/-- `Instrumentor::WriteFooter`: emits the closing bracket and brace. -/
def Instrumentor.WriteFooter (st : Instrumentor) : Instrumentor :=
  streamWrite st "]\x7d"

/-- `Instrumentor::BeginSession(name, filepath)`: opens the stream on
`filepath` in truncate mode, writes the header, and installs a fresh
`InstrumentationSession{name}`.  Per `std::ofstream::open`, the open
fails (failbit) when the stream is already open; on success the file is
truncated and the stream state is cleared.  The record counter is not
touched. -/
def Instrumentor.BeginSession (st : Instrumentor) (name : String) (filepath : String) : Instrumentor :=
  let st1 :=
    match st.sink with
    | some _ => { st with fail := true }
    | none =>
        { st with sink := some filepath, fail := false,
                  fs := fun q => if q = filepath then some "" else st.fs q }
  let st2 := st1.WriteHeader
  { st2 with m_CurrentSession := some name }

/-- `Instrumentor::EndSession()`: writes the footer, closes the stream
(per `std::ofstream::close`, setting failbit when not open), deletes the
session object, and resets the record counter. -/
def Instrumentor.EndSession (st : Instrumentor) : Instrumentor :=
  let st1 := st.WriteFooter
  let st2 :=
    match st1.sink with
    | some _ => { st1 with sink := none }
    | none => { st1 with fail := true }
  { st2 with m_CurrentSession := none, m_ProfileCount := 0 }

/-- `Instrumentor::WriteProfile(result)`: pre-increments the record
counter, emitting a separating comma when the old counter was positive,
then streams the serialized record field by field, exactly as the source
lines do (`cat`, `dur`, `name`, `ph`, `pid`, `tid`, `ts`); the final
`flush()` has no observable effect in the model. -/
def Instrumentor.WriteProfile (st : Instrumentor) (result : ProfileResult) : Instrumentor :=
  let oldCount := st.m_ProfileCount
  let s1 := { st with m_ProfileCount := oldCount + 1 }
  let s2 := if oldCount > 0 then streamWrite s1 "," else s1
  let name := replaceQuotes result.Name
  let s3 := streamWrite s2 "\x7b"
  let s4 := streamWrite s3 "\x22cat\x22:\x22function\x22,"
  let s5 := streamWrite s4 ("\x22dur\x22:" ++ toString (result.End - result.Start) ++ ",")
  let s6 := streamWrite s5 ("\x22name\x22:\x22" ++ name ++ "\x22,")
  let s7 := streamWrite s6 "\x22ph\x22:\x22X\x22,"
  let s8 := streamWrite s7 "\x22pid\x22:0,"
  let s9 := streamWrite s8 ("\x22tid\x22:" ++ toString result.ThreadID ++ ",")
  let s10 := streamWrite s9 ("\x22ts\x22:" ++ toString result.Start)
  streamWrite s10 "\x7d"

/-- The default-constructed `Instrumentor` (`m_CurrentSession(nullptr),
m_ProfileCount(0)`, stream not open), over an ambient file system. -/
def Instrumentor.init (fs0 : String → Option String) : Instrumentor :=
  { m_CurrentSession := none, m_ProfileCount := 0, sink := none, fail := false, fs := fs0 }

/-- Mirror of `class InstrumentationTimer`: bound name, start timestamp,
stopped flag. -/
structure InstrumentationTimer where
  m_Name : String
  m_StartTimepoint : Int
  m_Stopped : Bool
deriving DecidableEq

/-- The `InstrumentationTimer(name)` constructor: records the start
timepoint (`Clock.now()` passed in explicitly) and clears the stopped
flag. -/
def InstrumentationTimer.start (name : String) (now : Int) : InstrumentationTimer :=
  { m_Name := name, m_StartTimepoint := now, m_Stopped := false }

/-- `InstrumentationTimer::Stop()`: captures the end timepoint and the
current thread id (both passed in explicitly), calls
`Instrumentor::Get().WriteProfile({name, start, end, threadID})`, and
sets the stopped flag.  Note the source performs no check of
`m_Stopped` here. -/
def InstrumentationTimer.Stop (t : InstrumentationTimer) (endTime : Int) (threadID : Nat)
    (inst : Instrumentor) : InstrumentationTimer × Instrumentor :=
  let inst' := inst.WriteProfile
    { Name := t.m_Name, Start := t.m_StartTimepoint, End := endTime, ThreadID := threadID }
  ({ t with m_Stopped := true }, inst')

/-- `InstrumentationTimer::~InstrumentationTimer()`: calls `Stop()` only
when the stopped flag is not set. -/
def InstrumentationTimer.destruct (t : InstrumentationTimer) (endTime : Int) (threadID : Nat)
    (inst : Instrumentor) : Instrumentor :=
  if t.m_Stopped then inst else (t.Stop endTime threadID inst).2

/-- One completed scope: construct a timer at `r.Start`, let it go out of
scope at `r.End` on thread `r.ThreadID` (the destructor then stops it and
writes the record). -/
def completeScope (st : Instrumentor) (r : ProfileResult) : Instrumentor :=
  (InstrumentationTimer.start r.Name r.Start).destruct r.End r.ThreadID st

/-- A whole run: `BeginSession`, `N` completed scope timers, `EndSession`,
starting from the default-constructed singleton over file system `fs0`. -/
def runSession (name path : String) (records : List ProfileResult)
    (fs0 : String → Option String) : Instrumentor :=
  (records.foldl completeScope ((Instrumentor.init fs0).BeginSession name path)).EndSession

/-- The exact byte sequence `WriteProfile` streams for one record
(the pieces of source lines 102-110, in order). -/
def serializeRecord (r : ProfileResult) : String :=
  "\x7b" ++ "\x22cat\x22:\x22function\x22," ++
  ("\x22dur\x22:" ++ toString (r.End - r.Start) ++ ",") ++
  ("\x22name\x22:\x22" ++ replaceQuotes r.Name ++ "\x22,") ++
  "\x22ph\x22:\x22X\x22," ++ "\x22pid\x22:0," ++
  ("\x22tid\x22:" ++ toString r.ThreadID ++ ",") ++
  ("\x22ts\x22:" ++ toString r.Start) ++ "\x7d"

/-- Concatenation of a list of strings. -/
def joinAll : List String → String
  | [] => ""
  | s :: rest => s ++ joinAll rest

/-- Comma-separated join: `N` strings joined with `N - 1` commas. -/
def joinComma : List String → String
  | [] => ""
  | s :: rest => s ++ joinAll (rest.map fun t => "," ++ t)

theorem strEq_of_data {s t : String} (h : s.data = t.data) : s = t := by
  cases s; cases t; exact congrArg String.mk h

theorem str_append_empty (s : String) : s ++ "" = s := by
  apply strEq_of_data; simp [String.data_append]

theorem str_empty_append (s : String) : "" ++ s = s := by
  apply strEq_of_data; simp [String.data_append]

theorem str_append_assoc (a b c : String) : a ++ b ++ c = a ++ (b ++ c) := by
  apply strEq_of_data; simp [String.data_append]

@[simp] theorem streamWrite_sink (st : Instrumentor) (x : String) :
    (streamWrite st x).sink = st.sink := by
  unfold streamWrite
  rcases h : st.sink with _ | p <;> simp [h] <;> cases hf : st.fail <;> simp [hf, h]

@[simp] theorem streamWrite_fail (st : Instrumentor) (x : String) :
    (streamWrite st x).fail = st.fail := by
  unfold streamWrite
  rcases h : st.sink with _ | p <;> simp [h] <;> cases hf : st.fail <;> simp [hf, h]

@[simp] theorem streamWrite_count (st : Instrumentor) (x : String) :
    (streamWrite st x).m_ProfileCount = st.m_ProfileCount := by
  unfold streamWrite
  rcases h : st.sink with _ | p <;> simp [h] <;> cases hf : st.fail <;> simp [hf, h]

@[simp] theorem streamWrite_session (st : Instrumentor) (x : String) :
    (streamWrite st x).m_CurrentSession = st.m_CurrentSession := by
  unfold streamWrite
  rcases h : st.sink with _ | p <;> simp [h] <;> cases hf : st.fail <;> simp [hf, h]

theorem streamWrite_fs_open {st : Instrumentor} {p : String} (h1 : st.sink = some p)
    (h2 : st.fail = false) (x : String) :
    (streamWrite st x).fs =
      fun q => if q = p then some ((st.fs p).getD "" ++ x) else st.fs q := by
  unfold streamWrite
  simp [h1, h2]

theorem streamWrite_fs_closed {st : Instrumentor} (h1 : st.sink = none) (x : String) :
    (streamWrite st x).fs = st.fs := by
  unfold streamWrite
  simp [h1]

theorem streamWrite_fs_at_open {st : Instrumentor} {p c0 : String} (h1 : st.sink = some p)
    (h2 : st.fail = false) (hc : st.fs p = some c0) (x : String) :
    (streamWrite st x).fs p = some (c0 ++ x) := by
  rw [streamWrite_fs_open h1 h2]
  simp [hc]

theorem WriteProfile_sink (st : Instrumentor) (r : ProfileResult) :
    (st.WriteProfile r).sink = st.sink := by
  unfold Instrumentor.WriteProfile
  by_cases h : st.m_ProfileCount > 0 <;> simp [h]

theorem WriteProfile_fail (st : Instrumentor) (r : ProfileResult) :
    (st.WriteProfile r).fail = st.fail := by
  unfold Instrumentor.WriteProfile
  by_cases h : st.m_ProfileCount > 0 <;> simp [h]

theorem WriteProfile_count (st : Instrumentor) (r : ProfileResult) :
    (st.WriteProfile r).m_ProfileCount = st.m_ProfileCount + 1 := by
  unfold Instrumentor.WriteProfile
  by_cases h : st.m_ProfileCount > 0 <;> simp [h]

theorem WriteProfile_session (st : Instrumentor) (r : ProfileResult) :
    (st.WriteProfile r).m_CurrentSession = st.m_CurrentSession := by
  unfold Instrumentor.WriteProfile
  by_cases h : st.m_ProfileCount > 0 <;> simp [h]

theorem WriteProfile_fs_open {st : Instrumentor} {p c0 : String} (r : ProfileResult)
    (h1 : st.sink = some p) (h2 : st.fail = false) (hc : st.fs p = some c0) :
    (st.WriteProfile r).fs p =
      some (c0 ++ ((if st.m_ProfileCount > 0 then "," else "") ++ serializeRecord r)) := by
  obtain ⟨sess, cnt, sk, fl, fs⟩ := st
  simp only at h1 h2 hc ⊢
  subst h1
  subst h2
  by_cases hcnt : cnt > 0 <;>
    simp [Instrumentor.WriteProfile, streamWrite, hcnt, hc, serializeRecord, str_append_assoc]
  all_goals rfl

theorem WriteProfile_fs_closed {st : Instrumentor} (r : ProfileResult) (h1 : st.sink = none) :
    (st.WriteProfile r).fs = st.fs := by
  obtain ⟨sess, cnt, sk, fl, fs⟩ := st
  simp only at h1 ⊢
  subst h1
  by_cases hcnt : cnt > 0 <;> simp [Instrumentor.WriteProfile, streamWrite, hcnt]

theorem completeScope_eq (st : Instrumentor) (r : ProfileResult) :
    completeScope st r = st.WriteProfile r := rfl

theorem foldWrite_pos (records : List ProfileResult) :
    ∀ (st : Instrumentor) (p c0 : String), st.sink = some p → st.fail = false →
      0 < st.m_ProfileCount → st.fs p = some c0 →
      (records.foldl completeScope st).sink = some p ∧
      (records.foldl completeScope st).fail = false ∧
      0 < (records.foldl completeScope st).m_ProfileCount ∧
      (records.foldl completeScope st).fs p =
        some (c0 ++ joinAll (records.map fun r => "," ++ serializeRecord r)) := by
  induction records with
  | nil =>
      intro st p c0 h1 h2 h3 hc
      exact ⟨h1, h2, h3, by simpa [joinAll, str_append_empty] using hc⟩
  | cons r rest ih =>
      intro st p c0 h1 h2 h3 hc
      have hw : (st.WriteProfile r).fs p = some (c0 ++ ("," ++ serializeRecord r)) := by
        rw [WriteProfile_fs_open r h1 h2 hc, if_pos h3]
      have h1' : (st.WriteProfile r).sink = some p := by rw [WriteProfile_sink]; exact h1
      have h2' : (st.WriteProfile r).fail = false := by rw [WriteProfile_fail]; exact h2
      have h3' : 0 < (st.WriteProfile r).m_ProfileCount := by
        rw [WriteProfile_count]; omega
      have := ih (st.WriteProfile r) p (c0 ++ ("," ++ serializeRecord r)) h1' h2' h3' hw
      simpa [completeScope_eq, joinAll, str_append_assoc] using this

theorem foldWrite_zero (records : List ProfileResult) (st : Instrumentor) (p c0 : String)
    (h1 : st.sink = some p) (h2 : st.fail = false)
    (h3 : st.m_ProfileCount = 0) (hc : st.fs p = some c0) :
    (records.foldl completeScope st).sink = some p ∧
    (records.foldl completeScope st).fail = false ∧
    (records.foldl completeScope st).fs p =
      some (c0 ++ joinComma (records.map serializeRecord)) := by
  cases records with
  | nil => exact ⟨h1, h2, by simpa [joinComma, str_append_empty] using hc⟩
  | cons r rest =>
      have hw : (st.WriteProfile r).fs p = some (c0 ++ serializeRecord r) := by
        rw [WriteProfile_fs_open r h1 h2 hc, if_neg (by omega), str_empty_append]
      have h1' : (st.WriteProfile r).sink = some p := by rw [WriteProfile_sink]; exact h1
      have h2' : (st.WriteProfile r).fail = false := by rw [WriteProfile_fail]; exact h2
      have h3' : 0 < (st.WriteProfile r).m_ProfileCount := by
        rw [WriteProfile_count, h3]; omega
      have := foldWrite_pos rest (st.WriteProfile r) p (c0 ++ serializeRecord r) h1' h2' h3' hw
      exact ⟨by simpa [completeScope_eq] using this.1,
             by simpa [completeScope_eq] using this.2.1,
             by simpa [completeScope_eq, joinComma, str_append_assoc] using this.2.2.2⟩

/-- The header bytes `WriteHeader` emits. -/
def headerText : String := "\x7b\x22otherData\x22: \x7b\x7d,\x22traceEvents\x22:["

theorem BeginSession_closed {st : Instrumentor} (h : st.sink = none) (name path : String) :
    (st.BeginSession name path).sink = some path ∧
    (st.BeginSession name path).fail = false ∧
    (st.BeginSession name path).m_ProfileCount = st.m_ProfileCount ∧
    (st.BeginSession name path).m_CurrentSession = some name ∧
    (st.BeginSession name path).fs path = some headerText ∧
    (∀ q, q ≠ path → (st.BeginSession name path).fs q = st.fs q) := by
  obtain ⟨sess, cnt, sk, fl, fs⟩ := st
  simp only at h
  subst h
  refine ⟨rfl, rfl, rfl, rfl, ?_, ?_⟩
  · simp [Instrumentor.BeginSession, Instrumentor.WriteHeader, streamWrite, headerText,
      str_empty_append]
  · intro q hq
    simp [Instrumentor.BeginSession, Instrumentor.WriteHeader, streamWrite, hq]

theorem BeginSession_while_open {st : Instrumentor} {q : String} (h : st.sink = some q)
    (name path : String) :
    (st.BeginSession name path).sink = some q ∧
    (st.BeginSession name path).fail = true ∧
    (st.BeginSession name path).m_ProfileCount = st.m_ProfileCount ∧
    (st.BeginSession name path).fs = st.fs := by
  obtain ⟨sess, cnt, sk, fl, fs⟩ := st
  simp only at h
  subst h
  refine ⟨rfl, rfl, rfl, ?_⟩
  simp [Instrumentor.BeginSession, Instrumentor.WriteHeader, streamWrite]

theorem EndSession_open {st : Instrumentor} {p c0 : String} (h1 : st.sink = some p)
    (h2 : st.fail = false) (hc : st.fs p = some c0) :
    (st.EndSession).sink = none ∧
    (st.EndSession).m_ProfileCount = 0 ∧
    (st.EndSession).m_CurrentSession = none ∧
    (st.EndSession).fs p = some (c0 ++ "]\x7d") ∧
    (∀ q, q ≠ p → (st.EndSession).fs q = st.fs q) := by
  obtain ⟨sess, cnt, sk, fl, fs⟩ := st
  simp only at h1 h2 hc
  subst h1
  subst h2
  refine ⟨rfl, rfl, rfl, ?_, ?_⟩
  · simp [Instrumentor.EndSession, Instrumentor.WriteFooter, streamWrite, hc]
  · intro q hq
    simp [Instrumentor.EndSession, Instrumentor.WriteFooter, streamWrite, hq]

theorem EndSession_closed {st : Instrumentor} (h : st.sink = none) :
    (st.EndSession).fs = st.fs ∧
    (st.EndSession).sink = none ∧
    (st.EndSession).fail = true ∧
    (st.EndSession).m_ProfileCount = 0 ∧
    (st.EndSession).m_CurrentSession = none := by
  obtain ⟨sess, cnt, sk, fl, fs⟩ := st
  simp only at h
  subst h
  exact ⟨by simp [Instrumentor.EndSession, Instrumentor.WriteFooter, streamWrite], rfl, rfl, rfl, rfl⟩

theorem EndSession_sink (st : Instrumentor) : (st.EndSession).sink = none := by
  obtain ⟨sess, cnt, sk, fl, fs⟩ := st
  rcases sk with _ | p <;> cases fl <;>
    simp [Instrumentor.EndSession, Instrumentor.WriteFooter, streamWrite]

/-- Minimal JSON string-body escaping (spec side): escape the
double-quote and the backslash. -/
def escapeChars : List Char → List Char
  | [] => []
  | c :: cs =>
      if c = '\x22' then '\x5c' :: '\x22' :: escapeChars cs
      else if c = '\x5c' then '\x5c' :: '\x5c' :: escapeChars cs
      else c :: escapeChars cs

/-- Spec-side JSON string escaping, as a `String` map. -/
def jsonEscapeMin (s : String) : String := String.mk (escapeChars s.data)

/-- `s` contains no backslash character. -/
def NoBackslash (s : String) : Prop := ∀ c ∈ s.data, c ≠ '\x5c'

instance (s : String) : Decidable (NoBackslash s) := by
  unfold NoBackslash; infer_instance

theorem escapeChars_id {l : List Char} (h : ∀ c ∈ l, c ≠ '\x22' ∧ c ≠ '\x5c') :
    escapeChars l = l := by
  induction l with
  | nil => rfl
  | cons c cs ih =>
      obtain ⟨hq, hb⟩ := h c (List.mem_cons_self c cs)
      simp [escapeChars, hq, hb, ih fun d hd => h d (List.mem_cons_of_mem c hd)]

theorem replaceQuotes_no_quote (s : String) :
    ∀ c ∈ (replaceQuotes s).data, c ≠ '\x22' := by
  intro c hc
  simp only [replaceQuotes] at hc
  obtain ⟨d, _, hd⟩ := List.mem_map.mp hc
  by_cases h : d = '\x22'
  · simp [h] at hd
    subst hd
    decide
  · simp [h] at hd
    subst hd
    exact h

theorem replaceQuotes_no_backslash {s : String} (h : NoBackslash s) :
    NoBackslash (replaceQuotes s) := by
  intro c hc
  simp only [replaceQuotes] at hc
  obtain ⟨d, hdmem, hd⟩ := List.mem_map.mp hc
  by_cases hq : d = '\x22' <;> simp [hq] at hd <;> subst hd
  · decide
  · exact h d hdmem

theorem jsonEscapeMin_replaceQuotes {s : String} (h : NoBackslash s) :
    jsonEscapeMin (replaceQuotes s) = replaceQuotes s := by
  apply strEq_of_data
  simp only [jsonEscapeMin]
  exact escapeChars_id fun c hc =>
    ⟨replaceQuotes_no_quote s c hc, replaceQuotes_no_backslash h c hc⟩

/-- Spec-side JSON field value: an integer or a (to-be-escaped) string. -/
inductive JAtom where
  | jint (n : Int)
  | jstr (s : String)

/-- Render one field value; strings are quoted with their body escaped. -/
def JAtom.render : JAtom → String
  | .jint n => toString n
  | .jstr s => "\x22" ++ jsonEscapeMin s ++ "\x22"

/-- Render one `key : value` member of a JSON object. -/
def renderField (f : String × JAtom) : String :=
  "\x22" ++ f.1 ++ "\x22:" ++ f.2.render

/-- Render a flat JSON object with its members in the given order. -/
def renderObj (fields : List (String × JAtom)) : String :=
  "\x7b" ++ joinComma (fields.map renderField) ++ "\x7d"

/-- Spec-side event record (spec section 6): exactly the seven fields
`cat`, `dur`, `name`, `ph`, `pid`, `tid`, `ts`, in this order, with
`cat = "function"`, `dur = end - start`, `ph = "X"`, `pid = 0`,
`ts = start`, and the name under the spec's quote-substitution policy. -/
def specEvent (r : ProfileResult) : List (String × JAtom) :=
  [("cat", JAtom.jstr "function"),
   ("dur", JAtom.jint (r.End - r.Start)),
   ("name", JAtom.jstr (replaceQuotes r.Name)),
   ("ph", JAtom.jstr "X"),
   ("pid", JAtom.jint 0),
   ("tid", JAtom.jint (r.ThreadID : Int)),
   ("ts", JAtom.jint r.Start)]

/-- Spec-side whole trace file: the document shape stated in the spec,
with the `N` event objects comma-separated inside `traceEvents`. -/
def specTraceFile (records : List ProfileResult) : String :=
  "\x7b\x22otherData\x22: \x7b\x7d,\x22traceEvents\x22:[" ++
    joinComma (records.map fun r => renderObj (specEvent r)) ++ "]\x7d"

theorem serializeRecord_eq_render {r : ProfileResult} (h : NoBackslash r.Name) :
    serializeRecord r = renderObj (specEvent r) := by
  unfold renderObj specEvent
  simp only [List.map, renderField, JAtom.render, joinComma, joinAll,
    jsonEscapeMin_replaceQuotes h]
  unfold serializeRecord
  simp only [str_append_assoc, str_append_empty]
  rfl

/-- Concrete scenario: a fresh singleton, session begun on `out.json`. -/
def exStart : Instrumentor := (Instrumentor.init fun _ => none).BeginSession "s" "out.json"

/-- Concrete scenario: a timer on scope `f` started at t = 100. -/
def exTimer : InstrumentationTimer := InstrumentationTimer.start "f" 100

/-- Concrete scenario: the timer stopped explicitly at t = 150 on thread 7. -/
def exStop1 : InstrumentationTimer × Instrumentor := exTimer.Stop 150 7 exStart

/-- Concrete scenario: the same timer stopped explicitly a second time at t = 160. -/
def exStop2 : InstrumentationTimer × Instrumentor := exStop1.1.Stop 160 7 exStop1.2

/-- C1 (counterexample): calling `Stop()` twice explicitly does NOT
produce exactly one record: the second explicit `Stop()` appends a second
serialized record (with a second end timestamp) to the file and bumps the
record count to 2, because `Stop()` itself never checks `m_Stopped`. -/
theorem C1_counterexample :
    exStop2.2.m_ProfileCount = 2 ∧
    exStop2.2.fs "out.json" ≠ exStop1.2.fs "out.json" ∧
    exStop2.2.fs "out.json" =
      some (headerText ++ (serializeRecord ⟨"f", 100, 150, 7⟩ ++
        ("," ++ serializeRecord ⟨"f", 100, 160, 7⟩))) := by
  refine ⟨by decide, by decide, by decide⟩

/-- C1 (amended): stopping once explicitly and once via the destructor
produces exactly one record — `Stop()` sets `m_Stopped`, and the
destructor checks it and is then a no-op; but an explicit second `Stop()`
is not guarded (see the counterexample). -/
theorem C1_stop_then_destructor_once (t : InstrumentationTimer) (e1 e2 : Int)
    (tid1 tid2 : Nat) (inst : Instrumentor) :
    (t.Stop e1 tid1 inst).1.m_Stopped = true ∧
    InstrumentationTimer.destruct (t.Stop e1 tid1 inst).1 e2 tid2 (t.Stop e1 tid1 inst).2 =
      (t.Stop e1 tid1 inst).2 := by
  exact ⟨rfl, rfl⟩

/-- C2 (counterexample): calling `BeginSession` while the previous
session's sink is still open does not open or truncate the new path
(`std::ofstream::open` fails on an open stream), does not write a header
there, and does not reset the record counter (still 1, not 0). -/
theorem C2_counterexample :
    (exStop1.2.BeginSession "T" "b.json").fs "b.json" = none ∧
    (exStop1.2.BeginSession "T" "b.json").m_ProfileCount = 1 ∧
    (exStop1.2.BeginSession "T" "b.json").fail = true := by
  refine ⟨by decide, by decide, by decide⟩

/-- C2 (amended): when no sink is open, `BeginSession` opens/truncates
the path and writes the format header to it; it never resets the record
counter (only `EndSession` does); and when a previous session's sink is
still open, the open fails, leaving every file (including the new path)
untouched and the counter unchanged. -/
theorem C2_begin_behavior (st : Instrumentor) (name path : String) :
    (st.sink = none →
      (st.BeginSession name path).sink = some path ∧
      (st.BeginSession name path).fs path = some headerText ∧
      (st.BeginSession name path).m_ProfileCount = st.m_ProfileCount) ∧
    (∀ q, st.sink = some q →
      (st.BeginSession name path).fs = st.fs ∧
      (st.BeginSession name path).fail = true ∧
      (st.BeginSession name path).m_ProfileCount = st.m_ProfileCount) := by
  constructor
  · intro h
    obtain ⟨a, _, c, _, e, _⟩ := BeginSession_closed h name path
    exact ⟨a, e, c⟩
  · intro q h
    obtain ⟨_, b, c, d⟩ := BeginSession_while_open h name path
    exact ⟨d, b, c⟩

/-- Witness for C2 (amended): both branches at concrete states. -/
theorem C2_begin_behavior_witness :
    ((Instrumentor.init fun _ => none).BeginSession "s" "out.json").fs "out.json" =
      some headerText ∧
    (exStart.BeginSession "T" "b.json").fail = true := by
  constructor
  · exact ((C2_begin_behavior (Instrumentor.init fun _ => none) "s" "out.json").1 rfl).2.1
  · exact ((C2_begin_behavior exStart "T" "b.json").2 "out.json" rfl).2.1

/-- C6: `EndSession` with no open sink (never begun, or second call in a
row) leaves the whole file system untouched: the footer write and the
close are no-ops on a closed stream.  The second conjunct covers the
double-`End` case: after any `EndSession` the sink is closed, so a
following `EndSession` modifies no file. -/
theorem C6_endSession_closed_noop (st : Instrumentor) :
    (st.sink = none → (st.EndSession).fs = st.fs) ∧
    ((st.EndSession).EndSession).fs = (st.EndSession).fs := by
  constructor
  · intro h
    exact (EndSession_closed h).1
  · exact (EndSession_closed (EndSession_sink st)).1

/-- Witness for C6: a never-begun singleton ends without touching any
file. -/
theorem C6_endSession_closed_noop_witness :
    ((Instrumentor.init fun _ => none).EndSession).fs = (Instrumentor.init fun _ => none).fs :=
  (C6_endSession_closed_noop (Instrumentor.init fun _ => none)).1 rfl

/-- C10: stopping a scope timer after `EndSession` closed the sink does
not change any file (the record bytes go to a closed stream), yet the
record counter is still incremented; the destructor path performs the
same `Stop`. -/
theorem C10_stop_after_end (n : String) (s e : Int) (tid : Nat) (st0 : Instrumentor) :
    ((InstrumentationTimer.start n s).Stop e tid st0.EndSession).2.fs = (st0.EndSession).fs ∧
    ((InstrumentationTimer.start n s).Stop e tid st0.EndSession).2.m_ProfileCount =
      (st0.EndSession).m_ProfileCount + 1 ∧
    (InstrumentationTimer.start n s).destruct e tid st0.EndSession =
      ((InstrumentationTimer.start n s).Stop e tid st0.EndSession).2 := by
  refine ⟨?_, ?_, rfl⟩
  · exact WriteProfile_fs_closed _ (EndSession_sink st0)
  · exact WriteProfile_count _ _

theorem BeginSession_name (st : Instrumentor) (n1 n2 path : String) :
    st.BeginSession n1 path = { st.BeginSession n2 path with m_CurrentSession := some n1 } := rfl

theorem WriteProfile_ignores_session (st : Instrumentor) (x : Option String) (r : ProfileResult) :
    Instrumentor.WriteProfile { st with m_CurrentSession := x } r =
      { st.WriteProfile r with m_CurrentSession := x } := by
  obtain ⟨sess, cnt, sk, fl, fs⟩ := st
  by_cases h : cnt > 0 <;> rcases sk with _ | p <;> cases fl <;>
    simp [Instrumentor.WriteProfile, streamWrite, h]

theorem EndSession_ignores_session (st : Instrumentor) (x : Option String) :
    Instrumentor.EndSession { st with m_CurrentSession := x } = st.EndSession := by
  obtain ⟨sess, cnt, sk, fl, fs⟩ := st
  rcases sk with _ | p <;> cases fl <;>
    simp [Instrumentor.EndSession, Instrumentor.WriteFooter, streamWrite]

theorem foldScope_ignores_session (records : List ProfileResult) :
    ∀ (st : Instrumentor) (x : Option String),
      records.foldl completeScope { st with m_CurrentSession := x } =
        { records.foldl completeScope st with m_CurrentSession := x } := by
  induction records with
  | nil => intro st x; rfl
  | cons r rest ih =>
      intro st x
      simp only [List.foldl_cons, completeScope_eq]
      rw [WriteProfile_ignores_session]
      exact ih (st.WriteProfile r) x

/-- C8: two runs that differ only in the session name passed to
`BeginSession` write byte-identical data: the whole final file system is
the same, because the name is stored in the session object but never
serialized. -/
theorem C8_trace_independent_of_session_name (n1 n2 path : String)
    (records : List ProfileResult) (fs0 : String → Option String) :
    (runSession n1 path records fs0).fs = (runSession n2 path records fs0).fs := by
  unfold runSession
  rw [BeginSession_name (Instrumentor.init fs0) n1 n2 path, foldScope_ignores_session,
    EndSession_ignores_session]

/-- C3: a run of `BeginSession`, `N` completed scope timers, then
`EndSession` (names backslash-free, so that the emitted name bodies are
exactly their escaped forms) produces on `path` precisely the spec's
JSON document: the fixed header object shape, `traceEvents` holding
exactly the `N` records in order, each rendered with exactly the seven
fields `cat`, `dur`, `name`, `ph`, `pid`, `tid`, `ts` in that order,
`cat = "function"`, `ph = "X"`, `pid = 0`, `dur = end - start`,
`ts = start`. -/
theorem C3_roundtrip (name path : String) (records : List ProfileResult)
    (fs0 : String → Option String) (h : ∀ r ∈ records, NoBackslash r.Name) :
    (runSession name path records fs0).fs path = some (specTraceFile records) := by
  unfold runSession
  obtain ⟨b1, b2, b3, _, b5, _⟩ :=
    BeginSession_closed (rfl : (Instrumentor.init fs0).sink = none) name path
  obtain ⟨f1, f2, f3⟩ := foldWrite_zero records _ path headerText b1 b2 (b3.trans rfl) b5
  obtain ⟨_, _, _, e4, _⟩ := EndSession_open f1 f2 f3
  rw [e4]
  have hmap : records.map serializeRecord = records.map fun r => renderObj (specEvent r) :=
    List.map_congr_left fun r hr => serializeRecord_eq_render (h r hr)
  rw [hmap]
  rfl

/-- Witness for C3: the spec's own example — `Begin("P","r.json")`, a
timer `f1` spanning 100-150 and a timer `f2` spanning 150-210 on thread
7, then `End()` — yields exactly the spec's example document. -/
theorem C3_roundtrip_witness :
    (runSession "P" "r.json" [⟨"f1", 100, 150, 7⟩, ⟨"f2", 150, 210, 7⟩] fun _ => none).fs
        "r.json" = some (specTraceFile [⟨"f1", 100, 150, 7⟩, ⟨"f2", 150, 210, 7⟩]) ∧
    specTraceFile [⟨"f1", 100, 150, 7⟩, ⟨"f2", 150, 210, 7⟩] =
      "\x7b\x22otherData\x22: \x7b\x7d,\x22traceEvents\x22:[\x7b\x22cat\x22:\x22function\x22,\x22dur\x22:50,\x22name\x22:\x22f1\x22,\x22ph\x22:\x22X\x22,\x22pid\x22:0,\x22tid\x22:7,\x22ts\x22:100\x7d,\x7b\x22cat\x22:\x22function\x22,\x22dur\x22:60,\x22name\x22:\x22f2\x22,\x22ph\x22:\x22X\x22,\x22pid\x22:0,\x22tid\x22:7,\x22ts\x22:150\x7d]\x7d" := by
  constructor
  · exact C3_roundtrip "P" "r.json" [⟨"f1", 100, 150, 7⟩, ⟨"f2", 150, 210, 7⟩]
      (fun _ => none) (by decide)
  · decide

/-- C4: starting from a state whose record counter is zero, the `N`
records are emitted joined by exactly `N - 1` separating commas
(`joinComma`); moreover a single `WriteProfile` emits no comma when the
counter is zero (first record) and exactly one leading comma when the
counter is positive (any non-first record). -/
theorem C4_comma_separators (records : List ProfileResult) (st : Instrumentor)
    (p c0 : String) (h1 : st.sink = some p) (h2 : st.fail = false)
    (h3 : st.m_ProfileCount = 0) (hc : st.fs p = some c0) (r : ProfileResult) :
    (records.foldl completeScope st).fs p =
      some (c0 ++ joinComma (records.map serializeRecord)) ∧
    (st.WriteProfile r).fs p = some (c0 ++ serializeRecord r) ∧
    (∀ (st' : Instrumentor) (c1 : String), st'.sink = some p → st'.fail = false →
      0 < st'.m_ProfileCount → st'.fs p = some c1 →
      (st'.WriteProfile r).fs p = some (c1 ++ ("," ++ serializeRecord r))) := by
  refine ⟨(foldWrite_zero records st p c0 h1 h2 h3 hc).2.2, ?_, ?_⟩
  · rw [WriteProfile_fs_open r h1 h2 hc, if_neg (by omega), str_empty_append]
  · intro st' c1 g1 g2 g3 gc
    rw [WriteProfile_fs_open r g1 g2 gc, if_pos g3]

/-- Witness for C4: three records from a fresh session are joined by
exactly two commas; a first record gets no comma and a second gets one. -/
theorem C4_comma_separators_witness :
    (([⟨"a", 0, 1, 2⟩, ⟨"b", 1, 2, 2⟩, ⟨"c", 2, 3, 2⟩] : List ProfileResult).foldl
        completeScope exStart).fs "out.json" =
      some (headerText ++ joinComma
        (([⟨"a", 0, 1, 2⟩, ⟨"b", 1, 2, 2⟩, ⟨"c", 2, 3, 2⟩] : List ProfileResult).map
          serializeRecord)) := by
  exact (C4_comma_separators [⟨"a", 0, 1, 2⟩, ⟨"b", 1, 2, 2⟩, ⟨"c", 2, 3, 2⟩] exStart
    "out.json" headerText (by decide) (by decide) (by decide) (by decide) ⟨"a", 0, 1, 2⟩).1

/-- C5: `WriteProfile` replaces every double quote in the record name
with an apostrophe, so the emitted name body contains no double quote at
all; and for any name free of backslashes (quotes allowed), the emitted
record coincides with the canonical escaped JSON rendering of the seven
spec fields — a structurally valid entry. -/
theorem C5_quote_escaping (r : ProfileResult) (h : NoBackslash r.Name) :
    (∀ c ∈ (replaceQuotes r.Name).data, c ≠ '\x22') ∧
    serializeRecord r = renderObj (specEvent r) :=
  ⟨replaceQuotes_no_quote r.Name, serializeRecord_eq_render h⟩

/-- Skip JSON whitespace. -/
def skipWs : List Char → List Char
  | c :: cs => if c = ' ' ∨ c = '\t' ∨ c = '\n' ∨ c = '\r' then skipWs cs else c :: cs
  | [] => []

/-- Recognize the body of a JSON string after its opening quote
(lenient: any escaped character is accepted); returns the input after
the closing quote. -/
def parseStringBody : List Char → Option (List Char)
  | [] => none
  | c :: cs =>
      if c = '\x22' then some cs
      else if c = '\x5c' then
        match cs with
        | [] => none
        | _ :: cs2 => parseStringBody cs2
      else parseStringBody cs

/-- Characters that may continue a JSON number (lenient superset). -/
def isNumChar (c : Char) : Bool :=
  c.isDigit ∨ c = '.' ∨ c = 'e' ∨ c = 'E' ∨ c = '+' ∨ c = '-'

/-- Expect the given literal characters at the head of the input. -/
def expectLit : List Char → List Char → Option (List Char)
  | [], rest => some rest
  | l :: ls, c :: cs => if c = l then expectLit ls cs else none
  | _ :: _, [] => none

/-- Recognizer mode: a single value, array elements, or object members. -/
inductive PMode where
  | val | elems | members

/-- A lenient JSON recognizer (accepts a superset of standard JSON, so
rejection really means the input is not valid JSON).  Parses one value /
element list / member list and returns the unconsumed input on success;
the fuel bounds recursion depth. -/
def parseJ : Nat → PMode → List Char → Option (List Char)
  | 0, _, _ => none
  | Nat.succ f, PMode.val, cs =>
      match skipWs cs with
      | [] => none
      | c :: cs' =>
          if c = '\x22' then parseStringBody cs'
          else if c = '\x7b' then
            match skipWs cs' with
            | '\x7d' :: rest => some rest
            | cs2 => parseJ f PMode.members cs2
          else if c = '[' then
            match skipWs cs' with
            | ']' :: rest => some rest
            | cs2 => parseJ f PMode.elems cs2
          else if c = 't' then expectLit ['r', 'u', 'e'] cs'
          else if c = 'f' then expectLit ['a', 'l', 's', 'e'] cs'
          else if c = 'n' then expectLit ['u', 'l', 'l'] cs'
          else if c = '-' ∨ c.isDigit then some ((c :: cs').dropWhile isNumChar)
          else none
  | Nat.succ f, PMode.elems, cs =>
      match parseJ f PMode.val cs with
      | none => none
      | some rest =>
          match skipWs rest with
          | ',' :: rest2 => parseJ f PMode.elems rest2
          | ']' :: rest2 => some rest2
          | _ => none
  | Nat.succ f, PMode.members, cs =>
      match skipWs cs with
      | '\x22' :: cs' =>
          match parseStringBody cs' with
          | none => none
          | some rest =>
              match skipWs rest with
              | ':' :: rest2 =>
                  match parseJ f PMode.val rest2 with
                  | none => none
                  | some rest3 =>
                      match skipWs rest3 with
                      | ',' :: rest4 => parseJ f PMode.members rest4
                      | '\x7d' :: rest4 => some rest4
                      | _ => none
              | _ => none
      | _ => none

/-- Whole-document JSON validity under the lenient recognizer: one value
followed only by whitespace. -/
def jsonValid (s : String) : Bool :=
  match parseJ (s.data.length + 2) PMode.val s.data with
  | some rest => (skipWs rest).isEmpty
  | none => false

/-- Witness for C5: the spec's example name with quotes, `fn("x")`, is
emitted as `fn('x')`, coincides with the canonical rendering, and the
emitted record is a valid JSON object. -/
theorem C5_quote_escaping_witness :
    serializeRecord ⟨"fn(\x22x\x22)", 10, 20, 3⟩ =
      renderObj (specEvent ⟨"fn(\x22x\x22)", 10, 20, 3⟩) ∧
    replaceQuotes "fn(\x22x\x22)" = "fn(\x27x\x27)" ∧
    jsonValid (serializeRecord ⟨"fn(\x22x\x22)", 10, 20, 3⟩) = true := by
  refine ⟨(C5_quote_escaping ⟨"fn(\x22x\x22)", 10, 20, 3⟩ (by decide)).2, by decide, by decide⟩

/-- C9: the quote substitution is the only transformation applied to a
name: a backslash passes through `replaceQuotes` verbatim, and the file
produced for a record whose name ends in a single backslash is not valid
JSON (the backslash escapes the name's closing quote).  The last
conjunct checks the recognizer accepts the corresponding well-behaved
document, so the rejection is meaningful. -/
theorem C9_backslash_breaks_json :
    replaceQuotes "a\x5c" = "a\x5c" ∧
    (runSession "s" "o.json" [⟨"a\x5c", 0, 5, 1⟩] fun _ => none).fs "o.json" =
      some ("\x7b\x22otherData\x22: \x7b\x7d,\x22traceEvents\x22:[\x7b\x22cat\x22:\x22function\x22,\x22dur\x22:5,\x22name\x22:\x22a\x5c\x22,\x22ph\x22:\x22X\x22,\x22pid\x22:0,\x22tid\x22:1,\x22ts\x22:0\x7d]\x7d") ∧
    jsonValid "\x7b\x22otherData\x22: \x7b\x7d,\x22traceEvents\x22:[\x7b\x22cat\x22:\x22function\x22,\x22dur\x22:5,\x22name\x22:\x22a\x5c\x22,\x22ph\x22:\x22X\x22,\x22pid\x22:0,\x22tid\x22:1,\x22ts\x22:0\x7d]\x7d" = false ∧
    jsonValid "\x7b\x22otherData\x22: \x7b\x7d,\x22traceEvents\x22:[\x7b\x22cat\x22:\x22function\x22,\x22dur\x22:5,\x22name\x22:\x22ab\x22,\x22ph\x22:\x22X\x22,\x22pid\x22:0,\x22tid\x22:1,\x22ts\x22:0\x7d]\x7d" = true := by
  refine ⟨by decide, by decide, by decide, by decide⟩

/-- One atomic step of `WriteProfile`, at the granularity of the source
statements: the counter increment with its conditional comma, or one
stream insertion.  The source takes no lock around these statements, so
steps of two concurrent calls may interleave arbitrarily. -/
inductive WAction where
  | commaStep
  | emit (s : String)

/-- Execute one atomic step against the shared singleton state. -/
def applyAction (st : Instrumentor) : WAction → Instrumentor
  | WAction.commaStep =>
      let oldCount := st.m_ProfileCount
      let s1 := { st with m_ProfileCount := oldCount + 1 }
      if oldCount > 0 then streamWrite s1 "," else s1
  | WAction.emit x => streamWrite st x

/-- Execute a sequence of atomic steps. -/
def runActions (acts : List WAction) (st : Instrumentor) : Instrumentor :=
  acts.foldl applyAction st

/-- The statement-level step sequence of one `WriteProfile(r)` call. -/
def stepsFor (r : ProfileResult) : List WAction :=
  [WAction.commaStep,
   WAction.emit "\x7b",
   WAction.emit "\x22cat\x22:\x22function\x22,",
   WAction.emit ("\x22dur\x22:" ++ toString (r.End - r.Start) ++ ","),
   WAction.emit ("\x22name\x22:\x22" ++ replaceQuotes r.Name ++ "\x22,"),
   WAction.emit "\x22ph\x22:\x22X\x22,",
   WAction.emit "\x22pid\x22:0,",
   WAction.emit ("\x22tid\x22:" ++ toString r.ThreadID ++ ","),
   WAction.emit ("\x22ts\x22:" ++ toString r.Start),
   WAction.emit "\x7d"]

theorem runActions_stepsFor (st : Instrumentor) (r : ProfileResult) :
    runActions (stepsFor r) st = st.WriteProfile r := rfl

theorem runActions_cons (a : WAction) (l : List WAction) (st : Instrumentor) :
    runActions (a :: l) st = runActions l (applyAction st a) := rfl

theorem runActions_append (xs ys : List WAction) (st : Instrumentor) :
    runActions (xs ++ ys) st = runActions ys (runActions xs st) :=
  List.foldl_append applyAction st xs ys

/-- `IsInterleaving xs ys zs`: `zs` is an order-preserving merge of the
two threads' step sequences `xs` and `ys` — exactly the executions an
unlocked shared state admits. -/
inductive IsInterleaving : List WAction → List WAction → List WAction → Prop
  | nil : IsInterleaving [] [] []
  | left {xs ys zs : List WAction} {x : WAction} :
      IsInterleaving xs ys zs → IsInterleaving (x :: xs) ys (x :: zs)
  | right {xs ys zs : List WAction} {y : WAction} :
      IsInterleaving xs ys zs → IsInterleaving xs (y :: ys) (y :: zs)

/-- The corrupting schedule: thread 1 executes only its counter step,
thread 2 then runs its entire call, thread 1 finishes its emissions. -/
def badSchedule (r1 r2 : ProfileResult) : List WAction :=
  WAction.commaStep :: (stepsFor r2 ++ (stepsFor r1).drop 1)

theorem badSchedule_interleaving (r1 r2 : ProfileResult) :
    IsInterleaving (stepsFor r1) (stepsFor r2) (badSchedule r1 r2) := by
  show IsInterleaving (stepsFor r1) (stepsFor r2)
    (WAction.commaStep :: (stepsFor r2 ++ (stepsFor r1).drop 1))
  unfold stepsFor
  simp only [List.drop, List.cons_append, List.nil_append]
  apply IsInterleaving.left
  iterate 10 apply IsInterleaving.right
  iterate 9 apply IsInterleaving.left
  exact IsInterleaving.nil

theorem commaStep_zero {st : Instrumentor} (h : st.m_ProfileCount = 0) :
    applyAction st WAction.commaStep = { st with m_ProfileCount := st.m_ProfileCount + 1 } := by
  simp [applyAction, h]

theorem runActions_tailEmits (r : ProfileResult) {st : Instrumentor} {p c1 : String}
    (h1 : st.sink = some p) (h2 : st.fail = false) (hc : st.fs p = some c1) :
    (runActions ((stepsFor r).drop 1) st).fs p = some (c1 ++ serializeRecord r) := by
  obtain ⟨sess, cnt, sk, fl, fs⟩ := st
  simp only at h1 h2 hc
  subst h1
  subst h2
  simp [runActions, stepsFor, applyAction, streamWrite, hc, serializeRecord, str_append_assoc]

theorem comma_head (z : String) : ("," ++ z).data = ',' :: z.data := by
  rw [String.data_append]
  rfl

theorem serializeRecord_starts (r : ProfileResult) :
    ∃ l, (serializeRecord r).data = '\x7b' :: l := by
  unfold serializeRecord
  simp only [String.data_append, List.append_assoc]
  exact ⟨_, rfl⟩

theorem str_append_ne {a b c : String} {x y : Char} {lx ly : List Char}
    (hx : b.data = x :: lx) (hy : c.data = y :: ly) (hxy : x ≠ y) : a ++ b ≠ a ++ c := by
  intro h
  have hd := congrArg String.data h
  rw [String.data_append, String.data_append, hx, hy] at hd
  have h2 := List.append_cancel_left hd
  exact hxy (by injection h2)

/-- C7 (amended): `WriteProfile` takes no lock, so the statement-level
steps of two concurrent calls may interleave arbitrarily; from any
freshly begun session state there is an admissible interleaving whose
file bytes differ from both serialized executions — the comma-separated
structure is corrupted (a stray leading comma and two unseparated
records).  The first conjunct certifies that the step sequences are
exactly the statements of two sequential `WriteProfile` calls. -/
theorem C7_no_lock_interleaving_corrupts (r1 r2 : ProfileResult) (st : Instrumentor)
    (p c0 : String) (h1 : st.sink = some p) (h2 : st.fail = false)
    (h3 : st.m_ProfileCount = 0) (hc : st.fs p = some c0) :
    runActions (stepsFor r1 ++ stepsFor r2) st = (st.WriteProfile r1).WriteProfile r2 ∧
    ∃ zs, IsInterleaving (stepsFor r1) (stepsFor r2) zs ∧
      (runActions zs st).fs p ≠ (runActions (stepsFor r1 ++ stepsFor r2) st).fs p ∧
      (runActions zs st).fs p ≠ (runActions (stepsFor r2 ++ stepsFor r1) st).fs p := by
  obtain ⟨l1, hl1⟩ := serializeRecord_starts r1
  obtain ⟨l2, hl2⟩ := serializeRecord_starts r2
  have wA : (st.WriteProfile r1).fs p = some (c0 ++ serializeRecord r1) := by
    rw [WriteProfile_fs_open r1 h1 h2 hc, h3]
    norm_num [str_empty_append]
  have wB : (st.WriteProfile r2).fs p = some (c0 ++ serializeRecord r2) := by
    rw [WriteProfile_fs_open r2 h1 h2 hc, h3]
    norm_num [str_empty_append]
  have sA : (st.WriteProfile r1).sink = some p := by rw [WriteProfile_sink]; exact h1
  have fA : (st.WriteProfile r1).fail = false := by rw [WriteProfile_fail]; exact h2
  have cA : 0 < (st.WriteProfile r1).m_ProfileCount := by rw [WriteProfile_count, h3]; norm_num
  have sB : (st.WriteProfile r2).sink = some p := by rw [WriteProfile_sink]; exact h1
  have fB : (st.WriteProfile r2).fail = false := by rw [WriteProfile_fail]; exact h2
  have cB : 0 < (st.WriteProfile r2).m_ProfileCount := by rw [WriteProfile_count, h3]; norm_num
  have wAB : ((st.WriteProfile r1).WriteProfile r2).fs p =
      some (c0 ++ (serializeRecord r1 ++ ("," ++ serializeRecord r2))) := by
    rw [WriteProfile_fs_open r2 sA fA wA, if_pos cA, str_append_assoc]
  have wBA : ((st.WriteProfile r2).WriteProfile r1).fs p =
      some (c0 ++ (serializeRecord r2 ++ ("," ++ serializeRecord r1))) := by
    rw [WriteProfile_fs_open r1 sB fB wB, if_pos cB, str_append_assoc]
  have hst1sink : ({ st with m_ProfileCount := st.m_ProfileCount + 1 } : Instrumentor).sink
      = some p := h1
  have hst1fail : ({ st with m_ProfileCount := st.m_ProfileCount + 1 } : Instrumentor).fail
      = false := h2
  have hst1fs : ({ st with m_ProfileCount := st.m_ProfileCount + 1 } : Instrumentor).fs p
      = some c0 := hc
  have hW2 : (runActions (stepsFor r2) { st with m_ProfileCount := st.m_ProfileCount + 1 }).fs p
      = some (c0 ++ ("," ++ serializeRecord r2)) := by
    rw [runActions_stepsFor, WriteProfile_fs_open r2 hst1sink hst1fail hst1fs,
      if_pos (by simp [h3])]
  have hW2sink : (runActions (stepsFor r2)
      { st with m_ProfileCount := st.m_ProfileCount + 1 }).sink = some p := by
    rw [runActions_stepsFor, WriteProfile_sink]
    exact hst1sink
  have hW2fail : (runActions (stepsFor r2)
      { st with m_ProfileCount := st.m_ProfileCount + 1 }).fail = false := by
    rw [runActions_stepsFor, WriteProfile_fail]
    exact hst1fail
  have hbad : (runActions (badSchedule r1 r2) st).fs p =
      some (c0 ++ ("," ++ (serializeRecord r2 ++ serializeRecord r1))) := by
    rw [badSchedule, runActions_cons, runActions_append, commaStep_zero h3,
      runActions_tailEmits r1 hW2sink hW2fail hW2, str_append_assoc, str_append_assoc]
  refine ⟨rfl, badSchedule r1 r2, badSchedule_interleaving r1 r2, ?_, ?_⟩
  · have e1 : runActions (stepsFor r1 ++ stepsFor r2) st =
        (st.WriteProfile r1).WriteProfile r2 := rfl
    rw [hbad, e1, wAB]
    simp only [ne_eq, Option.some.injEq]
    exact str_append_ne (comma_head _)
      (by rw [String.data_append, hl1]; rfl) (by decide)
  · have e2 : runActions (stepsFor r2 ++ stepsFor r1) st =
        (st.WriteProfile r2).WriteProfile r1 := rfl
    rw [hbad, e2, wBA]
    simp only [ne_eq, Option.some.injEq]
    exact str_append_ne (comma_head _)
      (by rw [String.data_append, hl2]; rfl) (by decide)

/-- C7 (counterexample): since `WriteProfile` takes no lock, the
schedule "thread 1 runs its counter step; thread 2 runs its whole call;
thread 1 finishes" is an admissible interleaving of the two calls'
source statements, and it corrupts the output: the resulting bytes match
neither serialized order — the body gains a stray leading comma and the
two records are left unseparated. -/
theorem C7_counterexample :
    IsInterleaving (stepsFor ⟨"A", 0, 1, 2⟩) (stepsFor ⟨"B", 3, 4, 5⟩)
      (badSchedule ⟨"A", 0, 1, 2⟩ ⟨"B", 3, 4, 5⟩) ∧
    (runActions (badSchedule ⟨"A", 0, 1, 2⟩ ⟨"B", 3, 4, 5⟩) exStart).fs "out.json" ≠
      (runActions (stepsFor ⟨"A", 0, 1, 2⟩ ++ stepsFor ⟨"B", 3, 4, 5⟩) exStart).fs "out.json" ∧
    (runActions (badSchedule ⟨"A", 0, 1, 2⟩ ⟨"B", 3, 4, 5⟩) exStart).fs "out.json" ≠
      (runActions (stepsFor ⟨"B", 3, 4, 5⟩ ++ stepsFor ⟨"A", 0, 1, 2⟩) exStart).fs "out.json" ∧
    (runActions (badSchedule ⟨"A", 0, 1, 2⟩ ⟨"B", 3, 4, 5⟩) exStart).fs "out.json" =
      some (headerText ++ ("," ++
        (serializeRecord ⟨"B", 3, 4, 5⟩ ++ serializeRecord ⟨"A", 0, 1, 2⟩))) := by
  exact ⟨badSchedule_interleaving _ _, by decide, by decide, by decide⟩

/-- Witness for C7 (amended), at a concrete freshly begun session. -/
theorem C7_no_lock_interleaving_corrupts_witness :
    ∃ zs, IsInterleaving (stepsFor ⟨"wa", 0, 1, 2⟩) (stepsFor ⟨"wb", 3, 4, 5⟩) zs ∧
      (runActions zs exStart).fs "out.json" ≠
        (runActions (stepsFor ⟨"wa", 0, 1, 2⟩ ++ stepsFor ⟨"wb", 3, 4, 5⟩) exStart).fs
          "out.json" ∧
      (runActions zs exStart).fs "out.json" ≠
        (runActions (stepsFor ⟨"wb", 3, 4, 5⟩ ++ stepsFor ⟨"wa", 0, 1, 2⟩) exStart).fs
          "out.json" :=
  (C7_no_lock_interleaving_corrupts ⟨"wa", 0, 1, 2⟩ ⟨"wb", 3, 4, 5⟩ exStart "out.json"
    headerText rfl rfl rfl rfl).2

/-- C3 (counterexample): the unrestricted round-trip claim is false: a
run of one completed scope timer whose name ends in a backslash
produces a file rejected even by the lenient JSON recognizer — the
surviving backslash escapes the name's closing quote — so the file is
not parseable as JSON of the claimed shape. -/
theorem C3_counterexample :
    jsonValid (((runSession "s" "cx.json" [⟨"b\x5c", 2, 9, 4⟩] fun _ => none).fs
      "cx.json").getD "") = false ∧
    (runSession "s" "cx.json" [⟨"b\x5c", 2, 9, 4⟩] fun _ => none).fs "cx.json" =
      some "\x7b\x22otherData\x22: \x7b\x7d,\x22traceEvents\x22:[\x7b\x22cat\x22:\x22function\x22,\x22dur\x22:7,\x22name\x22:\x22b\x5c\x22,\x22ph\x22:\x22X\x22,\x22pid\x22:0,\x22tid\x22:4,\x22ts\x22:2\x7d]\x7d" := by
  exact ⟨by decide, by decide⟩

/-- C5 (counterexample): the unrestricted escaping claim is false: for
the name consisting of a double quote followed by a backslash, the
quote is duly replaced by an apostrophe, but the surviving backslash
escapes the name's closing quote and the emitted record is rejected
even by the lenient JSON recognizer. -/
theorem C5_counterexample :
    replaceQuotes "\x22\x5c" = "\x27\x5c" ∧
    jsonValid (serializeRecord ⟨"\x22\x5c", 0, 1, 2⟩) = false := by
  exact ⟨by decide, by decide⟩
